import Mathlib

/-!
Verification of the parallel chunked transfer engine of the repository
(src/helpers/transfer.py together with the FastTelethon engine it patches).

The embedding models:
* the environment-adaptive connection ceilings (MAX_DOWNLOAD_CONNECTIONS,
  MAX_UPLOAD_CONNECTIONS, transfer.py lines 10-21),
* the connection-count planner (transfer.py lines 108-120) and its
  installation on the engine class (line 122),
* the download/upload orchestrators (transfer.py lines 23-105), abstracted
  over the two external effects they perform: calls into the parallel
  engine and calls into the baseline single-connection transfer of the
  external chat client.  Each run is represented by the ordered list of
  those calls together with the value returned to the caller,
* the range scheduler and worker pool of the engine (FastTelethon.py,
  which the repository patches but whose source is not under src/); these
  are modelled from the description given in the specification.

The Python expression `math.ceil((file_size / full_size) * max_count)` is
modelled as the exact rational ceiling
`(file_size * max_count + full_size - 1) / full_size` over `Nat`.
-/

namespace Transfer

/-! ### Environment-adaptive connection ceilings (transfer.py lines 10-21)

IS_CONSTRAINED is true when any of the restricted-hosting environment
flags (RENDER, RENDER_EXTERNAL_URL, REPLIT_DEPLOYMENT, REPL_ID) is set;
the embedding carries it as a boolean parameter `is_constrained`. -/

def MAX_DOWNLOAD_CONNECTIONS (is_constrained : Bool) : Nat :=
  if is_constrained then 12 else 16

def MAX_UPLOAD_CONNECTIONS (is_constrained : Bool) : Nat :=
  if is_constrained then 8 else 10

/-! ### Connection-count planner (transfer.py lines 108-120) -/

/-- The planner (source name `_optimized_connection_count`): if
`file_size >= full_size` return `max_count`; otherwise return
`max(min(6, max_count // 2), ceil((file_size / full_size) * max_count))`.
The float ceiling is modelled as the exact rational ceiling. -/
def optimized_connection_count (file_size max_count full_size : Nat) : Nat :=
  if full_size ≤ file_size then max_count
  else
    let min_connections := min 6 (max_count / 2)
    max min_connections ((file_size * max_count + (full_size - 1)) / full_size)

/-- Line 122 of transfer.py installs the planner as the static method
`ParallelTransferrer._get_connection_count` of the engine class, with the
default arguments `max_count = MAX_DOWNLOAD_CONNECTIONS` and
`full_size = 100*1024*1024` bound at definition time. -/
def ParallelTransferrer_get_connection_count
    (is_constrained : Bool) (file_size : Nat) : Nat :=
  optimized_connection_count file_size
    (MAX_DOWNLOAD_CONNECTIONS is_constrained) (100 * 1024 * 1024)

/-- Modelled from the spec: the engine (FastTelethon.py, not under src/)
computes the connection count of a transfer by calling the planner
installed as `ParallelTransferrer._get_connection_count` with the blob
size.  No code under src/ passes any ceiling argument at any call site
(`fast_upload` is invoked with only client, file and progress callback),
and MAX_UPLOAD_CONNECTIONS is referenced nowhere in src/ after its
definition, so the connection count of an upload comes from the default
arguments of the installed planner. -/
def upload_connection_count (is_constrained : Bool) (file_size : Nat) : Nat :=
  ParallelTransferrer_get_connection_count is_constrained file_size

/-! ### Message metadata (external chat-client objects, interfaces only)

Only the fields read by the control flow of the orchestrator are
modelled.  A document object always carries `size`; `message.video` and
`message.audio` objects are read with a `getattr` call defaulting to 0,
so their size attribute may be absent (`none`); a photo carries a list of
size descriptors of which only those with a `size` attribute are usable.
The identity/access-hash/file-reference fields feed only the opaque
location handle and never influence control flow, so they are omitted. -/

structure Document where
  size : Nat
deriving DecidableEq, Repr

/-- A media object whose size is read as `getattr(obj, "size", 0)`: the
size attribute may be absent. -/
structure SizedMedia where
  sizeAttr : Option Nat
deriving DecidableEq, Repr

structure PhotoSize where
  hasSizeAttr : Bool
  size : Nat
deriving DecidableEq, Repr

structure Photo where
  sizes : List PhotoSize
deriving DecidableEq, Repr

structure Message where
  media : Bool
  document : Option Document
  video : Option SizedMedia
  audio : Option SizedMedia
  photo : Option Photo
deriving DecidableEq, Repr

/-! ### Download orchestrator (transfer.py lines 23-81) -/

/-- An external call made during a download: either the parallel engine
is started with the resolved file size (`fast_download`), or the baseline
single-connection download of the chat client (`client.download_media`)
is invoked. -/
inductive DlEvent where
  | engineCall (file_size : Nat)
  | baselineCall
deriving DecidableEq, Repr

/-- What `download_media_fast` returns on success: the destination path
`file` after an engine transfer, or whatever the baseline
`client.download_media` call returned. -/
inductive DlOutcome where
  | fastFile
  | baselineResult
deriving DecidableEq, Repr

/-- The Python expression `max(photo_sizes, key=lambda s: s.size).size`:
the largest `size` value among the usable photo sizes. -/
def largestPhotoSize (l : List PhotoSize) : Nat :=
  l.foldl (fun acc s => max acc s.size) 0

/-- Which branch of the chain
`if message.document / elif message.video / elif message.audio /
elif message.photo / else raise` (transfer.py lines 36-60) a message
takes, and the file size handed to the engine on the engine branches. -/
inductive MediaSel where
  | engine (file_size : Nat)
  | photoNoSizes
  | unsupported
deriving DecidableEq, Repr

def mediaSelect (m : Message) : MediaSel :=
  match m.document with
  | some d => .engine d.size
  | none =>
    match m.video with
    | some v => .engine (v.sizeAttr.getD 0)
    | none =>
      match m.audio with
      | some a => .engine (a.sizeAttr.getD 0)
      | none =>
        match m.photo with
        | some p =>
          match p.sizes.filter (fun s => s.hasSizeAttr) with
          | [] => .photoNoSizes
          | ss => .engine (largestPhotoSize ss)
        | none => .unsupported

/-- The download orchestrator `download_media_fast`, abstracted over
whether the engine call raises (`engineFails`).  Returns the ordered list
of external calls made and the value returned to the caller
(`Except.error` models an exception propagating out).

Control flow of the source: the guard
`if not message.media: raise ValueError` precedes the `try` block, so
that exception propagates with no external call made.  Inside the `try`:
the `raise ValueError("Unsupported media type")` of the final `else`
branch, and any exception from `fast_download`, are caught by
`except Exception`, which logs and returns the result of
`client.download_media(...)`; the photo branch with no usable sizes
returns `client.download_media(...)` directly. -/
def download_media_fast (m : Message) (engineFails : Bool) :
    List DlEvent × Except String DlOutcome :=
  if m.media then
    match mediaSelect m with
    | .engine s =>
      if engineFails then
        ([.engineCall s, .baselineCall], .ok .baselineResult)
      else
        ([.engineCall s], .ok .fastFile)
    | .photoNoSizes => ([.baselineCall], .ok .baselineResult)
    | .unsupported => ([.baselineCall], .ok .baselineResult)
  else
    ([], .error "Message has no media")

/-! ### Upload orchestrator (transfer.py lines 83-105) -/

/-- An external call made during an upload.  (The upload orchestrator
never invokes a baseline upload, but the event is needed to state
that.) -/
inductive UlEvent where
  | engineCall
  | baselineCall
deriving DecidableEq, Repr

/-- The value `upload_media_fast` can return when it does not return
`None`: the result of `fast_upload`. -/
inductive UlOutcome where
  | fastResult
deriving DecidableEq, Repr

/-- The upload orchestrator `upload_media_fast`, abstracted over whether
the engine call raises (`engineFails`).  On success it returns the
`fast_upload` result; on any exception the `except` block logs and
executes `return None` — there is no baseline call anywhere in the
function body. -/
def upload_media_fast (engineFails : Bool) :
    List UlEvent × Option UlOutcome :=
  if engineFails then ([.engineCall], none)
  else ([.engineCall], some .fastResult)

/-! ### Range scheduler and worker pool (modelled from the spec)

The engine itself lives in FastTelethon.py, which the repository patches
(transfer.py line 122) but whose source is not under src/.  The scheduler
and pool below are modelled from the description given in the
specification. -/

/-- Modelled from the spec: the Range Scheduler decomposes
`[0, total_size)` into ordered chunks of `chunk_size` bytes, handed out
by an atomically advancing cursor; the last chunk may be shorter.  Chunk
`i` is the pair `(offset, length)` given by
`(i * chunk_size, min chunk_size (total_size - i * chunk_size))`. -/
def chunkRanges (total_size chunk_size : Nat) : List (Nat × Nat) :=
  (List.range ((total_size + chunk_size - 1) / chunk_size)).map
    (fun i => (i * chunk_size, min chunk_size (total_size - i * chunk_size)))

/-- Job status per the state machine of the spec (Idle, Running, then
Complete or Failed); only the terminal states are observable when the job
returns. -/
inductive JobStatus where
  | Complete
  | Failed
deriving DecidableEq, Repr

/-- Modelled from the spec: the Worker Pool claims chunks in cursor
order; `fails i` says whether the fetch/push call of chunk `i` errors.
On the first failing chunk the job transitions to `Failed` and no further
chunks are claimed (cooperative cancellation, no per-chunk retry);
otherwise the chunk is written at its offset and the cursor advances.
Returns the terminal status and the list of chunks written to the
destination. -/
def runChunks (fails : Nat → Bool) :
    List (Nat × Nat) → Nat → JobStatus × List (Nat × Nat)
  | [], _ => (.Complete, [])
  | c :: rest, i =>
    if fails i then (.Failed, [])
    else
      let r := runChunks fails rest (i + 1)
      (r.1, c :: r.2)

/-- Modelled from the spec: one job schedules the chunks of
`[0, total_size)` and runs them through the pool.  The terminal status
does not depend on the connection count: `Failed` is entered the instant
any worker reports a fatal error and `Complete` only once every chunk has
been claimed and transferred, whatever the number of workers. -/
def runJob (total_size chunk_size : Nat) (fails : Nat → Bool) :
    JobStatus × List (Nat × Nat) :=
  runChunks fails (chunkRanges total_size chunk_size) 0

/-! ### Shared helper lemmas -/

/-- The planner never returns more than `max_count` (helper shared by the
claims below). -/
theorem planner_le_max_count (file_size max_count full_size : Nat)
    (h : 0 < full_size) :
    optimized_connection_count file_size max_count full_size ≤ max_count := by
  unfold optimized_connection_count
  by_cases hf : full_size ≤ file_size
  · rw [if_pos hf]
  · rw [if_neg hf]
    push_neg at hf
    apply max_le
    · exact le_trans (min_le_right _ _) (Nat.div_le_self _ _)
    · rw [Nat.div_le_iff_le_mul_add_pred h]
      have h2 : file_size * max_count ≤ full_size * max_count :=
        Nat.mul_le_mul_right _ (le_of_lt hf)
      omega

/-! ### Claim theorems -/

/-- C1 counterexample: with the engine raising, the upload orchestrator
returns `None` (an error-shaped placeholder) and never invokes the
baseline upload path, refuting the claim that it transparently retries
through the baseline path. -/
theorem upload_failure_returns_none_cex :
    (upload_media_fast true).2 = none ∧
    UlEvent.baselineCall ∉ (upload_media_fast true).1 := by
  decide

/-- C1 (amended): the upload orchestrator makes exactly one external
call, the engine call; when the engine raises it logs and returns `None`
without any baseline retry, and only when the engine succeeds does the
caller observe the engine result. -/
theorem upload_failure_no_fallback (engineFails : Bool) :
    (upload_media_fast engineFails).1 = [UlEvent.engineCall] ∧
    ((upload_media_fast engineFails).2 = none ↔ engineFails = true) := by
  cases engineFails <;> simp [upload_media_fast]

/-- C2: when a message resolves to the engine branch and the engine
raises, the download orchestrator invokes the baseline single-connection
download exactly once, after the engine call, and returns its result as
the overall result; there is no second level of fallback. -/
theorem download_engine_failure_single_fallback (m : Message) (s : Nat)
    (hm : m.media = true) (hsel : mediaSelect m = .engine s) :
    download_media_fast m true =
      ([.engineCall s, .baselineCall], .ok .baselineResult) ∧
    (download_media_fast m true).1.count DlEvent.baselineCall = 1 := by
  have h : download_media_fast m true =
      ([.engineCall s, .baselineCall], .ok .baselineResult) := by
    simp [download_media_fast, hm, hsel]
  refine ⟨h, ?_⟩
  rw [h]
  simp [List.count_cons, beq_iff_eq]

/-- A concrete document message used to instantiate the download
theorems. -/
def msgDocument : Message :=
  { media := true, document := some { size := 1024 },
    video := none, audio := none, photo := none }

/-- C2 witness: the fallback-once behaviour at a concrete document
message of size 1024. -/
theorem download_engine_failure_single_fallback_witness :
    download_media_fast msgDocument true =
      ([.engineCall 1024, .baselineCall], .ok .baselineResult) :=
  (download_engine_failure_single_fallback msgDocument 1024 rfl rfl).1

/-- C6: for every file size at or above the `full_size` threshold, the
planner returns exactly `max_count`. -/
theorem planner_at_or_above_full_size (file_size max_count full_size : Nat)
    (h : full_size ≤ file_size) :
    optimized_connection_count file_size max_count full_size = max_count := by
  unfold optimized_connection_count
  rw [if_pos h]

/-- C6 witness: at the threshold itself (100 MiB) with ceiling 16 the
planner returns 16. -/
theorem planner_at_or_above_full_size_witness :
    optimized_connection_count (100 * 1024 * 1024) 16 (100 * 1024 * 1024) = 16 :=
  planner_at_or_above_full_size _ _ _ (le_refl _)

/-- C9 counterexample: for an unconstrained environment, a 100 MiB upload
gets its connection count from the installed planner whose default
ceiling is MAX_DOWNLOAD_CONNECTIONS, yielding 16 — strictly above
MAX_UPLOAD_CONNECTIONS (10), so uploads are not governed by the upload
ceiling. -/
theorem upload_governed_by_download_ceiling_cex :
    upload_connection_count false (100 * 1024 * 1024) =
      MAX_DOWNLOAD_CONNECTIONS false ∧
    MAX_UPLOAD_CONNECTIONS false <
      upload_connection_count false (100 * 1024 * 1024) := by
  decide

/-- C9 (amended): the ceilings are environment-adaptive — under the
constrained-deployment flags both defined ceiling constants are strictly
lower than their unconstrained values — but they are not
direction-specific in effect: every transfer, uploads included, is
bounded by MAX_DOWNLOAD_CONNECTIONS (the default ceiling of the installed
planner), and a full-size upload attains that download ceiling. -/
theorem ceilings_env_adaptive_shared_planner :
    MAX_DOWNLOAD_CONNECTIONS true < MAX_DOWNLOAD_CONNECTIONS false ∧
    MAX_UPLOAD_CONNECTIONS true < MAX_UPLOAD_CONNECTIONS false ∧
    (∀ b fs, upload_connection_count b fs ≤ MAX_DOWNLOAD_CONNECTIONS b) ∧
    (∀ b, upload_connection_count b (100 * 1024 * 1024) =
      MAX_DOWNLOAD_CONNECTIONS b) := by
  refine ⟨by decide, by decide, ?_, ?_⟩
  · intro b fs
    exact planner_le_max_count fs _ _ (by decide)
  · intro b
    unfold upload_connection_count ParallelTransferrer_get_connection_count
      optimized_connection_count
    rw [if_pos (le_refl _)]

/-- C10: the no-media guard precedes the `try` block: a message without
media makes the orchestrator raise ValueError with no external call made
(neither engine nor baseline), while for every message with media the
orchestrator never raises — every other failure is absorbed into the
baseline fallback. -/
theorem no_media_raises_before_any_call (m : Message) (ef : Bool)
    (hm : m.media = false) :
    download_media_fast m ef = ([], .error "Message has no media") ∧
    ∀ m2 ef2, m2.media = true →
      ∃ tr out, download_media_fast m2 ef2 = (tr, Except.ok out) := by
  constructor
  · simp [download_media_fast, hm]
  · intro m2 ef2 h2
    cases hsel : mediaSelect m2 with
    | engine s =>
      cases ef2 with
      | false =>
        exact ⟨[.engineCall s], .fastFile,
          by simp [download_media_fast, h2, hsel]⟩
      | true =>
        exact ⟨[.engineCall s, .baselineCall], .baselineResult,
          by simp [download_media_fast, h2, hsel]⟩
    | photoNoSizes =>
      exact ⟨[.baselineCall], .baselineResult,
        by simp [download_media_fast, h2, hsel]⟩
    | unsupported =>
      exact ⟨[.baselineCall], .baselineResult,
        by simp [download_media_fast, h2, hsel]⟩

/-- A concrete message without media. -/
def msgNoMedia : Message :=
  { media := false, document := none, video := none, audio := none,
    photo := none }

/-- C10 witness: the concrete no-media message makes the orchestrator
raise with no external call. -/
theorem no_media_raises_before_any_call_witness :
    download_media_fast msgNoMedia false =
      ([], .error "Message has no media") :=
  (no_media_raises_before_any_call msgNoMedia false rfl).1

/-- A concrete message whose video object lacks the size attribute. -/
def msgVideoNoSize : Message :=
  { media := true, document := none, video := some { sizeAttr := none },
    audio := none, photo := none }

/-- C3 counterexample: for a video message whose size attribute is
absent, the orchestrator does start the parallel engine, with the
defaulted size 0 — refuting the claim that the engine is never invoked
with an unknown or defaulted size. -/
theorem download_defaulted_size_cex :
    msgVideoNoSize.video = some { sizeAttr := none } ∧
    download_media_fast msgVideoNoSize false =
      ([.engineCall 0], .ok .fastFile) ∧
    DlEvent.engineCall 0 ∈ (download_media_fast msgVideoNoSize false).1 := by
  refine ⟨rfl, rfl, ?_⟩
  decide

/-- C3 (amended): only the photo branch skips the engine when no usable
size exists — a photo with no usable sizes goes straight to the baseline
download; a video, and likewise an audio, whose size attribute is absent
is sent to the engine with the size defaulted to 0 (the first external
call is the engine call with size 0). -/
theorem download_unknown_size_paths :
    (∀ m p ef, m.media = true → m.document = none → m.video = none →
      m.audio = none → m.photo = some p →
      p.sizes.filter (fun s => s.hasSizeAttr) = [] →
      download_media_fast m ef = ([.baselineCall], .ok .baselineResult)) ∧
    (∀ m v ef, m.media = true → m.document = none → m.video = some v →
      v.sizeAttr = none →
      (download_media_fast m ef).1.head? = some (DlEvent.engineCall 0)) ∧
    (∀ m a ef, m.media = true → m.document = none → m.video = none →
      m.audio = some a → a.sizeAttr = none →
      (download_media_fast m ef).1.head? = some (DlEvent.engineCall 0)) := by
  refine ⟨?_, ?_, ?_⟩
  · intro m p ef hm hd hv ha hp hs
    simp [download_media_fast, mediaSelect, hm, hd, hv, ha, hp, hs]
  · intro m v ef hm hd hv hs
    cases ef <;> simp [download_media_fast, mediaSelect, hm, hd, hv, hs]
  · intro m a ef hm hd hv ha hs
    cases ef <;> simp [download_media_fast, mediaSelect, hm, hd, hv, ha, hs]

/-- A concrete photo message none of whose size descriptors carries a
size attribute. -/
def msgPhotoNoSizes : Message :=
  { media := true, document := none, video := none, audio := none,
    photo := some { sizes := [{ hasSizeAttr := false, size := 0 }] } }

/-- A concrete message whose audio object lacks the size attribute. -/
def msgAudioNoSize : Message :=
  { media := true, document := none, video := none,
    audio := some { sizeAttr := none }, photo := none }

/-- C3 witness: all three amended behaviours at concrete messages — the
sizeless photo goes straight to baseline, and the sizeless video and the
sizeless audio each start the engine with size 0. -/
theorem download_unknown_size_paths_witness :
    download_media_fast msgPhotoNoSizes false =
      ([.baselineCall], .ok .baselineResult) ∧
    (download_media_fast msgVideoNoSize true).1.head? =
      some (DlEvent.engineCall 0) ∧
    (download_media_fast msgAudioNoSize true).1.head? =
      some (DlEvent.engineCall 0) :=
  ⟨download_unknown_size_paths.1 msgPhotoNoSizes _ false rfl rfl rfl rfl rfl
      rfl,
   download_unknown_size_paths.2.1 msgVideoNoSize _ true rfl rfl rfl rfl,
   download_unknown_size_paths.2.2 msgAudioNoSize _ true rfl rfl rfl rfl rfl⟩

/-- The planner below the threshold: the guard is false, so the result is
the maximum of the floor and the proportional ceiling (helper). -/
theorem planner_below_eq (file_size max_count full_size : Nat)
    (h : file_size < full_size) :
    optimized_connection_count file_size max_count full_size =
      max (min 6 (max_count / 2))
        ((file_size * max_count + (full_size - 1)) / full_size) := by
  unfold optimized_connection_count
  rw [if_neg (not_le.mpr h)]

/-- C7: below the threshold the planner is monotonically non-decreasing
in the total size, always between the floor `min 6 (max_count / 2)` and
`max_count`, equal to the floor at size 0, and the floor is non-zero for
each of the four ceiling constants the code configures. -/
theorem planner_below_full_size_props (max_count full_size ts1 ts2 : Nat)
    (h12 : ts1 ≤ ts2) (h2 : ts2 < full_size) :
    optimized_connection_count ts1 max_count full_size ≤
      optimized_connection_count ts2 max_count full_size ∧
    (∀ ts, ts < full_size →
      min 6 (max_count / 2) ≤
        optimized_connection_count ts max_count full_size ∧
      optimized_connection_count ts max_count full_size ≤ max_count) ∧
    optimized_connection_count 0 max_count full_size =
      min 6 (max_count / 2) ∧
    (∀ b, 0 < min 6 (MAX_DOWNLOAD_CONNECTIONS b / 2) ∧
          0 < min 6 (MAX_UPLOAD_CONNECTIONS b / 2)) := by
  have hf : 0 < full_size := lt_of_le_of_lt (Nat.zero_le _) h2
  refine ⟨?_, ?_, ?_, ?_⟩
  · rw [planner_below_eq _ _ _ (lt_of_le_of_lt h12 h2),
      planner_below_eq _ _ _ h2]
    apply max_le_max (le_refl _)
    apply Nat.div_le_div_right
    have := Nat.mul_le_mul_right max_count h12
    omega
  · intro ts hts
    refine ⟨?_, planner_le_max_count _ _ _ hf⟩
    rw [planner_below_eq _ _ _ hts]
    exact le_max_left _ _
  · rw [planner_below_eq _ _ _ hf]
    have h0 : (0 * max_count + (full_size - 1)) / full_size = 0 :=
      Nat.div_eq_of_lt (by omega)
    rw [h0]
    exact max_eq_left (Nat.zero_le _)
  · intro b
    cases b <;> refine ⟨by decide, by decide⟩

/-- C7 witness: monotonicity at the concrete sizes 500000 and 1000000
under the unconstrained download ceiling. -/
theorem planner_below_full_size_props_witness :
    optimized_connection_count 500000 16 (100 * 1024 * 1024) ≤
      optimized_connection_count 1000000 16 (100 * 1024 * 1024) :=
  (planner_below_full_size_props 16 (100 * 1024 * 1024) 500000 1000000
    (by decide) (by decide)).1

/-! ### Helper lemmas about the scheduler and the pool -/

theorem chunkRanges_length (total_size chunk_size : Nat) :
    (chunkRanges total_size chunk_size).length =
      (total_size + chunk_size - 1) / chunk_size := by
  simp [chunkRanges]

/-- The number of chunks is the ceiling of `total_size / chunk_size`:
`total_size ≤ chunk_size * numChunks < total_size + chunk_size`. -/
theorem numChunks_bounds (total cs : Nat) (hcs : 0 < cs) :
    total ≤ cs * ((total + cs - 1) / cs) ∧
    cs * ((total + cs - 1) / cs) < total + cs := by
  have h1 := Nat.div_add_mod (total + cs - 1) cs
  have h2 := Nat.mod_lt (total + cs - 1) hcs
  omega

/-- Every scheduled chunk starts strictly inside the blob. -/
theorem chunk_offset_lt_total (total cs i : Nat) (hcs : 0 < cs)
    (hi : i < (total + cs - 1) / cs) : i * cs < total := by
  have h2 := (numChunks_bounds total cs hcs).2
  have h3 : (i + 1) * cs ≤ ((total + cs - 1) / cs) * cs :=
    Nat.mul_le_mul_right cs hi
  have h4 : cs * ((total + cs - 1) / cs) = ((total + cs - 1) / cs) * cs :=
    Nat.mul_comm _ _
  have h5 : (i + 1) * cs = i * cs + cs := Nat.succ_mul i cs
  omega

/-- The chunk ranges cover `[0, total)` exactly. -/
theorem chunkRanges_cover (total cs : Nat) (hcs : 0 < cs) (x : Nat) :
    x < total ↔ ∃ p ∈ chunkRanges total cs, p.1 ≤ x ∧ x < p.1 + p.2 := by
  constructor
  · intro hx
    have hn := (numChunks_bounds total cs hcs).1
    have hn' : total ≤ ((total + cs - 1) / cs) * cs := by
      rw [Nat.mul_comm] at hn; exact hn
    have hi : x / cs < (total + cs - 1) / cs := by
      rw [Nat.div_lt_iff_lt_mul hcs]
      omega
    refine ⟨(x / cs * cs, min cs (total - x / cs * cs)),
      List.mem_map.mpr ⟨x / cs, List.mem_range.mpr hi, rfl⟩, ?_, ?_⟩
    · exact Nat.div_mul_le_self x cs
    · have hmod := Nat.div_add_mod' x cs
      have hmlt := Nat.mod_lt x hcs
      have hA : x < x / cs * cs + cs := by omega
      have hB : x < x / cs * cs + (total - x / cs * cs) := by
        have := Nat.div_mul_le_self x cs
        omega
      rw [← min_add_add_left]
      exact lt_min hA hB
  · rintro ⟨p, hp, hle, hlt⟩
    obtain ⟨i, hi, rfl⟩ := List.mem_map.mp hp
    have hi' : i < (total + cs - 1) / cs := List.mem_range.mp hi
    have hoff := chunk_offset_lt_total total cs i hcs hi'
    have hmin : min cs (total - i * cs) ≤ total - i * cs := min_le_right _ _
    simp only at hle hlt
    omega

/-- The chunk ranges are laid out in strictly increasing, non-overlapping
order. -/
theorem chunkRanges_pairwise (total cs : Nat) :
    List.Pairwise (fun p q : Nat × Nat => p.1 + p.2 ≤ q.1)
      (chunkRanges total cs) := by
  unfold chunkRanges
  refine List.Pairwise.map _ ?_ (List.pairwise_lt_range _)
  intro a b hab
  have h1 : min cs (total - a * cs) ≤ cs := min_le_left _ _
  have h2 : (a + 1) * cs ≤ b * cs := Nat.mul_le_mul_right cs hab
  have h3 : (a + 1) * cs = a * cs + cs := Nat.succ_mul a cs
  omega

/-- No chunk appears twice in the schedule. -/
theorem chunkRanges_nodup (total cs : Nat) (hcs : 0 < cs) :
    (chunkRanges total cs).Nodup := by
  unfold chunkRanges
  refine (List.nodup_range _).map ?_
  intro a b hab
  have h : a * cs = b * cs := congrArg Prod.fst hab
  exact Nat.eq_of_mul_eq_mul_right hcs h

/-- Every chunk is non-empty and no longer than `chunk_size`. -/
theorem chunkRanges_len_bounds (total cs : Nat) (hcs : 0 < cs) :
    ∀ p ∈ chunkRanges total cs, 0 < p.2 ∧ p.2 ≤ cs := by
  intro p hp
  obtain ⟨i, hi, rfl⟩ := List.mem_map.mp hp
  have hi' : i < (total + cs - 1) / cs := List.mem_range.mp hi
  have hoff := chunk_offset_lt_total total cs i hcs hi'
  constructor
  · exact lt_min hcs (by omega)
  · exact min_le_left _ _

/-- Every chunk except possibly the last has length exactly
`chunk_size`. -/
theorem chunkRanges_full_except_last (total cs : Nat) (hcs : 0 < cs) :
    ∀ i, i + 1 < (chunkRanges total cs).length →
      ((chunkRanges total cs).getD i (0, 0)).2 = cs := by
  intro i hi
  rw [chunkRanges_length] at hi
  have hget : (chunkRanges total cs).getD i (0, 0) =
      (i * cs, min cs (total - i * cs)) := by
    unfold chunkRanges
    rw [List.getD_eq_getElem?_getD]
    simp [List.getElem?_map, List.getElem?_range (by omega : i < (total + cs - 1) / cs)]
  rw [hget]
  have hoff := chunk_offset_lt_total total cs (i + 1) hcs hi
  have h3 : (i + 1) * cs = i * cs + cs := Nat.succ_mul i cs
  have : cs ≤ total - i * cs := by omega
  exact min_eq_left this

/-- If some chunk index in range fails, the run ends `Failed`. -/
theorem runChunks_failed_of_exists (fails : Nat → Bool) :
    ∀ (l : List (Nat × Nat)) (i : Nat),
      (∃ j, j < l.length ∧ fails (i + j) = true) →
      (runChunks fails l i).1 = .Failed := by
  intro l
  induction l with
  | nil =>
    intro i h
    obtain ⟨j, hj, _⟩ := h
    simp at hj
  | cons c rest ih =>
    intro i h
    obtain ⟨j, hj, hfj⟩ := h
    by_cases hfi : fails i = true
    · simp [runChunks, hfi]
    · simp only [runChunks, hfi, if_false]
      apply ih
      cases j with
      | zero => exact absurd hfj (by simpa using hfi)
      | succ j' =>
        refine ⟨j', by simpa using hj, ?_⟩
        have harg : i + 1 + j' = i + (j' + 1) := by omega
        rw [harg]
        exact hfj

/-- A run reported `Complete` wrote every scheduled chunk. -/
theorem runChunks_complete_writes (fails : Nat → Bool) :
    ∀ (l : List (Nat × Nat)) (i : Nat),
      (runChunks fails l i).1 = .Complete →
      (runChunks fails l i).2 = l := by
  intro l
  induction l with
  | nil => intro i _; rfl
  | cons c rest ih =>
    intro i h
    by_cases hfi : fails i = true
    · simp [runChunks, hfi] at h
    · simp only [runChunks, hfi, if_false] at h ⊢
      exact congrArg (c :: ·) (ih (i + 1) h)

/-! ### Claim theorems (engine, modelled from the spec) -/

/-- C5: for every job with a positive chunk size, the scheduled chunk
ranges partition `[0, total_size)` exactly — their union is
`[0, total_size)`, they are pairwise non-overlapping, no chunk is
scheduled twice, every chunk is non-empty and at most `chunk_size` long,
and every chunk except possibly the last is exactly `chunk_size` long. -/
theorem chunk_ranges_partition (total_size chunk_size : Nat)
    (hcs : 0 < chunk_size) :
    (∀ x, x < total_size ↔ ∃ p ∈ chunkRanges total_size chunk_size,
        p.1 ≤ x ∧ x < p.1 + p.2) ∧
    List.Pairwise (fun p q : Nat × Nat => p.1 + p.2 ≤ q.1)
      (chunkRanges total_size chunk_size) ∧
    (chunkRanges total_size chunk_size).Nodup ∧
    (∀ p ∈ chunkRanges total_size chunk_size,
      0 < p.2 ∧ p.2 ≤ chunk_size) ∧
    (∀ i, i + 1 < (chunkRanges total_size chunk_size).length →
      ((chunkRanges total_size chunk_size).getD i (0, 0)).2 = chunk_size) :=
  ⟨chunkRanges_cover _ _ hcs, chunkRanges_pairwise _ _,
   chunkRanges_nodup _ _ hcs, chunkRanges_len_bounds _ _ hcs,
   chunkRanges_full_except_last _ _ hcs⟩

/-- C5 witness: the no-overlap layout of the schedule for a 7-byte blob
with 3-byte chunks. -/
theorem chunk_ranges_partition_witness :
    List.Pairwise (fun p q : Nat × Nat => p.1 + p.2 ≤ q.1)
      (chunkRanges 7 3) :=
  (chunk_ranges_partition 7 3 (by decide)).2.1

/-- C4: in a job run with more than one connection in which exactly one
chunk fails, the job status is `Failed` (no per-chunk retry inside the
engine), and in general a run is reported `Complete` only when every
scheduled chunk was written — a partially-written destination is never
silently reported as success. -/
theorem single_chunk_failure_fails_job (total_size chunk_size N : Nat)
    (fails : Nat → Bool) (k : Nat) (hN : 1 < N)
    (hk : k < (chunkRanges total_size chunk_size).length)
    (hfk : fails k = true)
    (huniq : ∀ j, j < (chunkRanges total_size chunk_size).length →
      fails j = true → j = k) :
    (runJob total_size chunk_size fails).1 = .Failed ∧
    ∀ g : Nat → Bool, (runJob total_size chunk_size g).1 = .Complete →
      (runJob total_size chunk_size g).2 =
        chunkRanges total_size chunk_size := by
  constructor
  · exact runChunks_failed_of_exists fails _ 0 ⟨k, hk, by simpa using hfk⟩
  · intro g hg
    exact runChunks_complete_writes g _ 0 hg

/-- C4 witness: a 10-byte job with 3-byte chunks and two connections in
which exactly chunk 1 fails ends `Failed`. -/
theorem single_chunk_failure_fails_job_witness :
    (runJob 10 3 (fun i => decide (i = 1))).1 = JobStatus.Failed :=
  (single_chunk_failure_fails_job 10 3 2 (fun i => decide (i = 1)) 1
    (by decide) (by decide) (by decide)
    (fun j _ hf => of_decide_eq_true hf)).1

/-- C8 counterexample: for a 500000-byte blob with 65536-byte chunks the
scheduler produces 8 chunks, but none of them has length 7616 — the
partial chunk claimed by the scenario does not exist. -/
theorem scenario1_partial_chunk_cex :
    (chunkRanges 500000 65536).length = 8 ∧
    ¬ ∃ p ∈ chunkRanges 500000 65536, p.2 = 7616 := by
  decide

/-- C8 (amended): with `total_size = 500000`, `chunk_size = 65536`,
`max_count = 16` and `full_size = 100` MiB, the planner returns 6 and the
scheduler produces exactly 8 chunks — 7 full chunks of 65536 bytes and
one partial chunk of 41248 bytes — whose lengths sum to the blob size. -/
theorem scenario1_planner_and_chunks :
    optimized_connection_count 500000 16 (100 * 1024 * 1024) = 6 ∧
    chunkRanges 500000 65536 =
      [(0, 65536), (65536, 65536), (131072, 65536), (196608, 65536),
       (262144, 65536), (327680, 65536), (393216, 65536),
       (458752, 41248)] ∧
    ((chunkRanges 500000 65536).map (fun p => p.2)).sum = 500000 ∧
    ((chunkRanges 500000 65536).filter
      (fun p => decide (p.2 = 65536))).length = 7 := by
  refine ⟨by decide, by decide, by decide, by decide⟩

end Transfer
